import Mathlib

/-!
Verification development for the SolutionExplorerFileSystemRepository
(process-engine/solutionexplorer.repository.filesystem).

The repository contains three near-duplicate source variants of the class
`SolutionExplorerFileSystemRepository`.  Where the variants agree, a single
Lean definition carries the source name.  Where they differ, the variant
from the first half of `SolutionExplorerFileSystemRepository.ts`
(lines 1 to 182) is suffixed `V1` and the variant from the second half
(lines 183 to 399, which coincides with the third variant in
`unnamed/part_000` on the methods the claims touch) is suffixed `V2`.

The Node.js filesystem and path library (`fs`, `path`) are modelled by an
association-list filesystem and by posix path helpers over character
lists; overflow-free strings stand for file paths and contents.
-/

namespace SolutionExplorer

/-- The fixed diagram file extension, `BPMN_FILE_SUFFIX` in the source. -/
def BPMN_FILE_SUFFIX : String := ".bpmn"

/-- Model of the typed errors signalled by the repository
(`NotFoundError`, `BadRequestError`, `InternalServerError` from the
errors library) together with `fsError`, which stands for a raw
filesystem failure that the source surfaces unwrapped (a rejected
`readFile` or `rename` promise). -/
inductive RepoError
  | NotFoundError
  | BadRequestError
  | InternalServerError
  | fsError
deriving DecidableEq, Repr

/-- Model of the opaque `IIdentity` credential object: the repository
never inspects it, it is only stored and threaded through. -/
structure IIdentity where
  token : Nat
deriving DecidableEq, Repr

/-- The `IDiagram` data-transfer shape: `name`, `uri`, `xml`, and the
optional `id` field that only `getDiagramByName` populates. -/
structure IDiagram where
  name : String
  uri : String
  xml : String
  id : Option String := none
deriving DecidableEq, Repr

/-- The `ISolution` data-transfer shape: an ordered sequence of diagrams. -/
structure ISolution where
  diagrams : List IDiagram
deriving DecidableEq, Repr

/-- A filesystem entry: a regular file with text content, or a directory. -/
inductive Entry
  | file (content : String)
  | directory
deriving DecidableEq, Repr

/-- The filesystem is a finite association list from paths to entries;
the first binding for a path wins. -/
abbrev FileSystem := List (String × Entry)

/-- Look a path up in the filesystem. -/
def FileSystem.lookup (fs : FileSystem) (p : String) : Option Entry :=
  match fs with
  | [] => none
  | (q, e) :: rest => if q = p then some e else FileSystem.lookup rest p

/-- Remove every binding for a path. -/
def FileSystem.removeKey (fs : FileSystem) (p : String) : FileSystem :=
  match fs with
  | [] => []
  | (q, e) :: rest =>
    if q = p then FileSystem.removeKey rest p else (q, e) :: FileSystem.removeKey rest p

/-- Model of `fs.existsSync`. -/
def existsSync (fs : FileSystem) (p : String) : Bool :=
  (fs.lookup p).isSome

/-- Model of `fs.statSync(p).isDirectory()`. -/
def isDirectory (fs : FileSystem) (p : String) : Bool :=
  match fs.lookup p with
  | some Entry.directory => true
  | _ => false

/-- Model of `promisify(fs.readFile)(p, utf8)`: resolves with the text
content of a regular file, rejects (with a raw fs error) on a missing
path or a directory. -/
def readFile (fs : FileSystem) (p : String) : Except RepoError String :=
  match fs.lookup p with
  | some (Entry.file content) => Except.ok content
  | _ => Except.error RepoError.fsError

/-- Model of `promisify(fs.writeFile)(p, data)`: creates or overwrites
the file at `p` with content `data`. -/
def writeFile (fs : FileSystem) (p : String) (data : String) : FileSystem :=
  (p, Entry.file data) :: fs.removeKey p

/-- Model of `promisify(fs.rename)(oldPath, newPath)`: rejects when the
source does not exist, otherwise moves its entry to `newPath`,
overwriting any entry already there. -/
def rename (fs : FileSystem) (oldPath newPath : String) : Except RepoError FileSystem :=
  match fs.lookup oldPath with
  | none => Except.error RepoError.fsError
  | some e => Except.ok ((newPath, e) :: (fs.removeKey oldPath).removeKey newPath)

/-- Posix `path.join(a, b)` for a normalized directory `a` and a plain
relative segment `b` (neither empty nor containing dot segments). -/
def pathJoin (a b : String) : String :=
  a ++ "/" ++ b

/-- Posix `path.dirname`: everything before the last slash; `.` when
there is no slash, `/` when the prefix before the last slash is empty. -/
def dirname (p : String) : String :=
  let rev := p.data.reverse
  if rev.contains '/' then
    let dirRev := (rev.dropWhile (fun c => !(c == '/'))).drop 1
    if dirRev.isEmpty then "/" else String.mk dirRev.reverse
  else "."

/-- JavaScript `s.endsWith(suffix)`. -/
def strEndsWith (s suffix : String) : Bool :=
  suffix.data.isSuffixOf s.data

/-- Strip `n` trailing characters: the effect of
`path.basename(file, suffix)` (and of the third variant's
`file.substr(0, file.length - suffix.length)`) on a slash-free filename
that ends with the suffix. -/
def strDropRight (s : String) (n : Nat) : String :=
  String.mk (s.data.take (s.data.length - n))

/-- JavaScript `s.toLowerCase()` on ASCII names. -/
def strToLower (s : String) : String :=
  String.mk (s.data.map Char.toLower)

/-- Strip a leading character-list prefix, or fail. -/
def stripPre : List Char → List Char → Option (List Char)
  | [], p => some p
  | _, [] => none
  | c :: cs, x :: xs => if c == x then stripPre cs xs else none

/-- The name under which path `p` is a direct child of directory `d`:
`p = d ++ sep ++ n` with `n` nonempty and slash-free. -/
def childNameOf (d p : String) : Option String :=
  match stripPre (d.data ++ [ '/' ]) p.data with
  | some rest =>
    if rest.isEmpty || rest.contains '/' then none else some (String.mk rest)
  | none => none

/-- Model of `promisify(fs.readdir)(d)`: the names of the entries
directly inside directory `d`; rejects when `d` is not a directory. -/
def readdir (fs : FileSystem) (d : String) : Except RepoError (List String) :=
  if isDirectory fs d then
    Except.ok (fs.filterMap (fun pr => childNameOf d pr.1))
  else Except.error RepoError.fsError

/-- The mutable fields of the repository object: the constructor-time
trash folder location and the session state set by `openPath`. -/
structure Repository where
  trashFolderLocation : String
  basePath : String
  identity : IIdentity
deriving DecidableEq, Repr

/-- A world: the filesystem together with the repository's state. -/
structure World where
  fs : FileSystem
  repo : Repository
deriving DecidableEq, Repr

/-- Model of `_checkForDirectory` (identical in all variants): `NotFoundError`
when the path does not exist, `BadRequestError` when it exists but is
not a directory. -/
def checkForDirectory (fs : FileSystem) (directoryPath : String) : Except RepoError Unit :=
  if !(existsSync fs directoryPath) then Except.error RepoError.NotFoundError
  else if !(isDirectory fs directoryPath) then Except.error RepoError.BadRequestError
  else Except.ok ()

/-- Model of `_checkWriteablity` (identical in all variants): the directory check
applied to the target's parent directory. -/
def checkWriteablity (fs : FileSystem) (filePath : String) : Except RepoError Unit :=
  checkForDirectory fs (dirname filePath)

/-- Model of `openPath` (identical in all variants): validate the path as a
directory, then store it and the identity.  A failing operation returns
the unchanged world, reflecting that the source throws before assigning
the fields. -/
def openPath (w : World) (pathspec : String) (identity : IIdentity) :
    Except RepoError Unit × World :=
  match checkForDirectory w.fs pathspec with
  | Except.error e => (Except.error e, w)
  | Except.ok () =>
    (Except.ok (),
      { w with repo := { w.repo with basePath := pathspec, identity := identity } })

/-- Fail-fast collection of independent `Except` computations: the model
of `Promise.all` over a list of already-started pure reads — the first
rejection propagates, successful results are collected in order. -/
def mapME {α β : Type} (g : α → Except RepoError β) :
    List α → Except RepoError (List β)
  | [] => Except.ok []
  | a :: as =>
    match g a with
    | Except.error e => Except.error e
    | Except.ok b =>
      match mapME g as with
      | Except.error e => Except.error e
      | Except.ok bs => Except.ok (b :: bs)

/-- The per-file body of `getDiagrams`' mapped async closure: read
`join(basePath, file)` into a diagram whose `name` is the filename with
the suffix stripped, whose `uri` is the joined path, and whose `id` is
left unset. -/
def readDiagramEntry (w : World) (file : String) : Except RepoError IDiagram :=
  match readFile w.fs (pathJoin w.repo.basePath file) with
  | Except.error e => Except.error e
  | Except.ok xml =>
    Except.ok { name := strDropRight file BPMN_FILE_SUFFIX.length
                uri := pathJoin w.repo.basePath file
                xml := xml }

/-- Model of `getDiagrams` (identical in all variants): list the current root,
keep the names ending in `.bpmn`, and read each such file into a
diagram. -/
def getDiagrams (w : World) : Except RepoError (List IDiagram) :=
  match readdir w.fs w.repo.basePath with
  | Except.error e => Except.error e
  | Except.ok filesInDirectory =>
    mapME (readDiagramEntry w)
      (filesInDirectory.filter (fun f => strEndsWith f BPMN_FILE_SUFFIX))

/-- Model of `getDiagramByName` (identical in variants 1 and 2): read
`join(basePath, name + suffix)` and return a diagram that carries the
full path both as `uri` and as `id`. -/
def getDiagramByName (w : World) (diagramName : String) : Except RepoError IDiagram :=
  match readFile w.fs (pathJoin w.repo.basePath (diagramName ++ BPMN_FILE_SUFFIX)) with
  | Except.error e => Except.error e
  | Except.ok xml =>
    Except.ok { name := diagramName
                uri := pathJoin w.repo.basePath (diagramName ++ BPMN_FILE_SUFFIX)
                xml := xml
                id := some (pathJoin w.repo.basePath (diagramName ++ BPMN_FILE_SUFFIX)) }

/-- Model of `saveDiagram`, first variant (lines 79 to 97): write to `newPathSpec`
when supplied, else directly to the diagram's own `uri`; no comparison
against the canonical path is made. -/
def saveDiagramV1 (w : World) (diagramToSave : IDiagram) (newPathSpec : Option String) :
    Except RepoError Unit × World :=
  let pathToWriteDiagram :=
    match newPathSpec with
    | some p => p
    | none => diagramToSave.uri
  match checkWriteablity w.fs pathToWriteDiagram with
  | Except.error e => (Except.error e, w)
  | Except.ok () =>
    (Except.ok (), { w with fs := writeFile w.fs pathToWriteDiagram diagramToSave.xml })

/-- Model of `saveDiagram`, second variant (lines 295 to 323, also the variant in
`unnamed/part_000`): when no `newPathSpec` is supplied, the expected
canonical path `join(basePath, name + suffix)` is compared against the
diagram's `uri`; a mismatch is rejected with `BadRequestError` before
anything is written. -/
def saveDiagramV2 (w : World) (diagramToSave : IDiagram) (newPathSpec : Option String) :
    Except RepoError Unit × World :=
  match newPathSpec with
  | some p =>
    match checkWriteablity w.fs p with
    | Except.error e => (Except.error e, w)
    | Except.ok () => (Except.ok (), { w with fs := writeFile w.fs p diagramToSave.xml })
  | none =>
    if !(pathJoin w.repo.basePath (diagramToSave.name ++ BPMN_FILE_SUFFIX)
          == diagramToSave.uri) then
      (Except.error RepoError.BadRequestError, w)
    else
      match checkWriteablity w.fs diagramToSave.uri with
      | Except.error e => (Except.error e, w)
      | Except.ok () =>
        (Except.ok (), { w with fs := writeFile w.fs diagramToSave.uri diagramToSave.xml })

/-- The `Promise.all` over the per-diagram saves issued by
`saveSolution`: every save runs (a failure does not stop the others,
there is no rollback), and the first failure becomes the overall
result.  First variant, calling `saveDiagramV1`. -/
def saveAllDiagramsV1 (w : World) : List IDiagram → Except RepoError Unit × World
  | [] => (Except.ok (), w)
  | d :: rest =>
    ((match (saveDiagramV1 w d none).1 with
      | Except.error e => Except.error e
      | Except.ok () => (saveAllDiagramsV1 (saveDiagramV1 w d none).2 rest).1),
     (saveAllDiagramsV1 (saveDiagramV1 w d none).2 rest).2)

/-- Model of `saveSolution`, first variant (lines 99 to 111): when a new solution
path is supplied, re-open the store there first, reusing the stored
identity, then save every diagram of the solution with no path
override. -/
def saveSolutionV1 (w : World) (solution : ISolution) (pathToSolution : Option String) :
    Except RepoError Unit × World :=
  match pathToSolution with
  | some p =>
    match openPath w p w.repo.identity with
    | (Except.error e, w1) => (Except.error e, w1)
    | (Except.ok (), w1) => saveAllDiagramsV1 w1 solution.diagrams
  | none => saveAllDiagramsV1 w solution.diagrams

/-- The loop body of `_findUnusedFilename` (first variant, lines 152 to
162), with explicit fuel standing in for the unbounded `while`: while
the current candidate exists, the next candidate
`desiredName + dot + attempt` is tried. -/
def findUnusedGo (fs : FileSystem) (desiredName : String) :
    Nat → String → Nat → String
  | 0, currentName, _ => currentName
  | fuel + 1, currentName, attempt =>
    if existsSync fs currentName then
      findUnusedGo fs desiredName fuel (desiredName ++ "." ++ toString attempt) (attempt + 1)
    else currentName

/-- Model of `_findUnusedFilename` (first variant): starting from `desiredName`
with `attempt = 1`.  One unit of fuel per existing filesystem binding
plus one is enough for the loop to reach its exit in every reachable
case. -/
def findUnusedFilename (fs : FileSystem) (desiredName : String) : String :=
  findUnusedGo fs desiredName (fs.length + 1) desiredName 1

/-- Model of `deleteDiagram`, first variant (lines 113 to 124): any failure of the
trash-directory check is collapsed into `BadRequestError`; then the file
at the diagram's `uri` is renamed to the first unused candidate inside
the trash folder. -/
def deleteDiagramV1 (w : World) (diagram : IDiagram) : Except RepoError Unit × World :=
  match checkForDirectory w.fs w.repo.trashFolderLocation with
  | Except.error _ => (Except.error RepoError.BadRequestError, w)
  | Except.ok () =>
    let desiredName := pathJoin w.repo.trashFolderLocation (diagram.name ++ BPMN_FILE_SUFFIX)
    match rename w.fs diagram.uri (findUnusedFilename w.fs desiredName) with
    | Except.error e => (Except.error e, w)
    | Except.ok fs1 => (Except.ok (), { w with fs := fs1 })

/-- The inline trash-collision loop of the second variant's
`deleteDiagram` (lines 349 to 358), with explicit fuel for the unbounded
`while`: each iteration first re-tests the CURRENT candidate and only
then advances the candidate, so the loop leaves the candidate one step
past the first free name. -/
def deleteTargetGoV2 (fs : FileSystem) (orginalTargetFile : String) :
    Nat → String → Bool → Nat → String
  | 0, targetFile, _, _ => targetFile
  | fuel + 1, targetFile, fileAlreadyExists, attemptCount =>
    if fileAlreadyExists then
      deleteTargetGoV2 fs orginalTargetFile fuel
        (orginalTargetFile ++ "." ++ toString attemptCount)
        (existsSync fs targetFile)
        (attemptCount + 1)
    else targetFile

/-- Model of `deleteDiagram`, second variant (lines 339 to 361): same trash check,
but the target name is resolved by the inline loop above. -/
def deleteDiagramV2 (w : World) (diagram : IDiagram) : Except RepoError Unit × World :=
  match checkForDirectory w.fs w.repo.trashFolderLocation with
  | Except.error _ => (Except.error RepoError.BadRequestError, w)
  | Except.ok () =>
    let orginalTargetFile := pathJoin w.repo.trashFolderLocation (diagram.name ++ BPMN_FILE_SUFFIX)
    let targetFile := deleteTargetGoV2 w.fs orginalTargetFile (w.fs.length + 2)
      orginalTargetFile (existsSync w.fs orginalTargetFile) 1
    match rename w.fs diagram.uri targetFile with
    | Except.error e => (Except.error e, w)
    | Except.ok fs1 => (Except.ok (), { w with fs := fs1 })

/-- Model of `renameDiagram`, first variant (lines 126 to 143): an existing
destination is only rejected when the new name differs from the current
name case-insensitively; then the file is renamed and the result is
re-read through `getDiagramByName`. -/
def renameDiagramV1 (w : World) (diagram : IDiagram) (newName : String) :
    Except RepoError IDiagram × World :=
  let newDiagramUri := pathJoin w.repo.basePath (newName ++ BPMN_FILE_SUFFIX)
  match checkWriteablity w.fs newDiagramUri with
  | Except.error e => (Except.error e, w)
  | Except.ok () =>
    if existsSync w.fs newDiagramUri
        && !(strToLower newName == strToLower diagram.name) then
      (Except.error RepoError.BadRequestError, w)
    else
      match rename w.fs diagram.uri newDiagramUri with
      | Except.error e => (Except.error e, w)
      | Except.ok fs1 =>
        let w1 : World := { w with fs := fs1 }
        match getDiagramByName w1 newName with
        | Except.error e => (Except.error e, w1)
        | Except.ok d => (Except.ok d, w1)

/-- Model of `renameDiagram`, second variant (lines 363 to 379): any existing
destination is rejected with `BadRequestError`; then the file is renamed
and the result is re-read through `getDiagramByName`. -/
def renameDiagramV2 (w : World) (diagram : IDiagram) (newName : String) :
    Except RepoError IDiagram × World :=
  let newDiagramUri := pathJoin w.repo.basePath (newName ++ BPMN_FILE_SUFFIX)
  match checkWriteablity w.fs newDiagramUri with
  | Except.error e => (Except.error e, w)
  | Except.ok () =>
    if existsSync w.fs newDiagramUri then
      (Except.error RepoError.BadRequestError, w)
    else
      match rename w.fs diagram.uri newDiagramUri with
      | Except.error e => (Except.error e, w)
      | Except.ok fs1 =>
        let w1 : World := { w with fs := fs1 }
        match getDiagramByName w1 newName with
        | Except.error e => (Except.error e, w1)
        | Except.ok d => (Except.ok d, w1)

/-- Whether an `Except` computation succeeded, as a decidable boolean. -/
def exceptIsOk {α : Type} : Except RepoError α → Bool
  | Except.ok _ => true
  | Except.error _ => false

instance {ε α : Type} [DecidableEq ε] [DecidableEq α] : DecidableEq (Except ε α) := fun a b =>
  match a, b with
  | Except.error e, Except.error f =>
    match decEq e f with
    | isTrue h => isTrue (by rw [h])
    | isFalse h => isFalse (fun c => h (by injection c))
  | Except.error _, Except.ok _ => isFalse (fun c => Except.noConfusion c)
  | Except.ok _, Except.error _ => isFalse (fun c => Except.noConfusion c)
  | Except.ok x, Except.ok y =>
    match decEq x y with
    | isTrue h => isTrue (by rw [h])
    | isFalse h => isFalse (fun c => h (by injection c))

/-- A directory is in particular an existing path. -/
theorem existsSync_of_isDirectory {fs : FileSystem} {p : String}
    (h : isDirectory fs p = true) : existsSync fs p = true := by
  unfold isDirectory at h
  unfold existsSync
  cases hl : fs.lookup p with
  | none => rw [hl] at h; simp at h
  | some e => simp [Option.isSome, hl]

/-- The directory check succeeds exactly on directories. -/
theorem checkForDirectory_ok {fs : FileSystem} {p : String}
    (h : isDirectory fs p = true) : checkForDirectory fs p = Except.ok () := by
  unfold checkForDirectory
  simp [h, existsSync_of_isDirectory h]

/-- On a non-directory the directory check fails with one of its two
errors. -/
theorem checkForDirectory_error {fs : FileSystem} {p : String}
    (h : isDirectory fs p = false) : ∃ e, checkForDirectory fs p = Except.error e := by
  unfold checkForDirectory
  by_cases h1 : existsSync fs p
  · exact ⟨RepoError.BadRequestError, by simp [h1, h]⟩
  · exact ⟨RepoError.NotFoundError, by simp [h1]⟩

/-- Looking up the key just written. -/
theorem lookup_writeFile_self (fs : FileSystem) (p c : String) :
    (writeFile fs p c).lookup p = some (Entry.file c) := by
  unfold writeFile FileSystem.lookup
  simp

/-- Removing a key leaves other keys alone. -/
theorem lookup_removeKey_ne {q p : String} (fs : FileSystem) (h : q ≠ p) :
    (fs.removeKey p).lookup q = fs.lookup q := by
  induction fs with
  | nil => rfl
  | cons pr rest ih =>
    by_cases hp : pr.1 = p
    · have hq : pr.1 ≠ q := by rw [hp]; exact fun c => h c.symm
      simp [FileSystem.removeKey, FileSystem.lookup, hp, hq, ih, Ne.symm h]
    · by_cases hq : pr.1 = q
      · simp [FileSystem.removeKey, FileSystem.lookup, hp, hq, h, ih]
      · simp [FileSystem.removeKey, FileSystem.lookup, hp, hq, ih]

/-- The removed key is gone. -/
theorem lookup_removeKey_self (fs : FileSystem) (p : String) :
    (fs.removeKey p).lookup p = none := by
  induction fs with
  | nil => rfl
  | cons pr rest ih =>
    by_cases hp : pr.1 = p
    · simp [FileSystem.removeKey, hp, ih]
    · simp [FileSystem.removeKey, FileSystem.lookup, hp, ih]

/-- Writing one path leaves lookups at other paths alone. -/
theorem lookup_writeFile_ne {q p : String} (fs : FileSystem) (c : String) (h : q ≠ p) :
    (writeFile fs p c).lookup q = fs.lookup q := by
  unfold writeFile
  have hne : p ≠ q := fun c => h c.symm
  simp [FileSystem.lookup, hne]
  exact lookup_removeKey_ne fs h

/-- Writing a file does not change whether other paths are directories. -/
theorem isDirectory_writeFile_ne {q p : String} (fs : FileSystem) (c : String) (h : q ≠ p) :
    isDirectory (writeFile fs p c) q = isDirectory fs q := by
  unfold isDirectory
  rw [lookup_writeFile_ne fs c h]

/-- Claim C4: `openPath(p, identity)` fails with `NotFoundError` when
`p` does not exist, fails with `BadRequestError` when `p` exists but is
not a directory — in both failure cases returning the world unchanged,
so the stored root and identity are untouched — and on success replaces
the stored root and identity. -/
theorem openPath_spec (w : World) (p : String) (ident : IIdentity) :
    openPath w p ident =
      if existsSync w.fs p = false then (Except.error RepoError.NotFoundError, w)
      else if isDirectory w.fs p = false then (Except.error RepoError.BadRequestError, w)
      else
        (Except.ok (),
          { w with repo := { w.repo with basePath := p, identity := ident } }) := by
  unfold openPath checkForDirectory
  by_cases h1 : existsSync w.fs p
  · by_cases h2 : isDirectory w.fs p
    · simp [h1, h2]
    · simp [h1, h2]
  · simp [h1]

/-- Removing a key twice is the same as removing it once. -/
theorem removeKey_removeKey (fs : FileSystem) (p : String) :
    (fs.removeKey p).removeKey p = fs.removeKey p := by
  induction fs with
  | nil => rfl
  | cons pr rest ih =>
    by_cases hp : pr.1 = p
    · simp [FileSystem.removeKey, hp, ih]
    · simp [FileSystem.removeKey, hp, ih]

/-- Writing the same content to the same path twice equals writing it
once. -/
theorem writeFile_writeFile (fs : FileSystem) (p c : String) :
    writeFile (writeFile fs p c) p c = writeFile fs p c := by
  unfold writeFile
  simp [FileSystem.removeKey, removeKey_removeKey]

/-- The no-`newPathSpec` success path of the second `saveDiagram`
variant: matching `uri` and an existing parent directory lead to a
write at the diagram's `uri`. -/
theorem saveV2_none_ok {w : World} {d : IDiagram}
    (hu : pathJoin w.repo.basePath (d.name ++ BPMN_FILE_SUFFIX) = d.uri)
    (hd : isDirectory w.fs (dirname d.uri) = true) :
    saveDiagramV2 w d none = (Except.ok (), { w with fs := writeFile w.fs d.uri d.xml }) := by
  unfold saveDiagramV2
  have hok : checkWriteablity w.fs d.uri = Except.ok () := checkForDirectory_ok hd
  simp [hu, hok]

/-- The guard of the second `saveDiagram` variant: a changed `uri` is
rejected before anything happens. -/
theorem saveV2_none_guard {w : World} {d : IDiagram}
    (hu : pathJoin w.repo.basePath (d.name ++ BPMN_FILE_SUFFIX) ≠ d.uri) :
    saveDiagramV2 w d none = (Except.error RepoError.BadRequestError, w) := by
  unfold saveDiagramV2
  simp [hu]

/-- The explicit-path branch of the second `saveDiagram` variant
bypasses the guard entirely. -/
theorem saveV2_some_ok {w : World} {d : IDiagram} {p : String}
    (hd : isDirectory w.fs (dirname p) = true) :
    saveDiagramV2 w d (some p) = (Except.ok (), { w with fs := writeFile w.fs p d.xml }) := by
  unfold saveDiagramV2
  have hok : checkWriteablity w.fs p = Except.ok () := checkForDirectory_ok hd
  simp [hok]

/-- The first `saveDiagram` variant writes to the diagram's `uri`
whenever the parent directory exists, with no comparison at all. -/
theorem saveV1_none_ok {w : World} {d : IDiagram}
    (hd : isDirectory w.fs (dirname d.uri) = true) :
    saveDiagramV1 w d none = (Except.ok (), { w with fs := writeFile w.fs d.uri d.xml }) := by
  unfold saveDiagramV1
  have hok : checkWriteablity w.fs d.uri = Except.ok () := checkForDirectory_ok hd
  simp [hok]

/-- The first `saveDiagram` variant fails without writing when the
parent directory check fails. -/
theorem saveV1_none_error {w : World} {d : IDiagram}
    (hd : isDirectory w.fs (dirname d.uri) = false) :
    ∃ e, saveDiagramV1 w d none = (Except.error e, w) := by
  obtain ⟨e, he⟩ := checkForDirectory_error hd
  refine ⟨e, ?_⟩
  unfold saveDiagramV1
  simp [checkWriteablity, he]

/-- The second `saveDiagram` variant with a matching `uri` but a failing
parent-directory check fails without writing. -/
theorem saveV2_none_check_error {w : World} {d : IDiagram}
    (hu : pathJoin w.repo.basePath (d.name ++ BPMN_FILE_SUFFIX) = d.uri)
    (hd : isDirectory w.fs (dirname d.uri) = false) :
    ∃ e, saveDiagramV2 w d none = (Except.error e, w) := by
  obtain ⟨e, he⟩ := checkForDirectory_error hd
  refine ⟨e, ?_⟩
  unfold saveDiagramV2
  simp [hu, checkWriteablity, he]

/-- Claim C8: whenever the trash-root directory check fails — because
the trash path is absent or because it exists but is not a directory —
`deleteDiagram` fails with `BadRequestError` (never `NotFoundError`)
and performs no rename, in both source variants. -/
theorem deleteDiagram_trash_check_spec (w : World) (d : IDiagram)
    (h : isDirectory w.fs w.repo.trashFolderLocation = false) :
    deleteDiagramV1 w d = (Except.error RepoError.BadRequestError, w) ∧
    deleteDiagramV2 w d = (Except.error RepoError.BadRequestError, w) := by
  obtain ⟨e, he⟩ := checkForDirectory_error h
  constructor
  · unfold deleteDiagramV1
    simp [he]
  · unfold deleteDiagramV2
    simp [he]

/-- Witness for C8: with the trash root absent, and with the trash root
present as a regular file, `deleteDiagram` returns `BadRequestError`
and an unchanged world. -/
theorem deleteDiagram_trash_check_spec_witness :
    deleteDiagramV1
      { fs := [("/r", Entry.directory), ("/r/x.bpmn", Entry.file "X")],
        repo := { trashFolderLocation := "/trash", basePath := "/r", identity := ⟨0⟩ } }
      { name := "x", uri := "/r/x.bpmn", xml := "X" } =
      (Except.error RepoError.BadRequestError,
        { fs := [("/r", Entry.directory), ("/r/x.bpmn", Entry.file "X")],
          repo := { trashFolderLocation := "/trash", basePath := "/r", identity := ⟨0⟩ } }) ∧
    deleteDiagramV2
      { fs := [("/r", Entry.directory), ("/r/x.bpmn", Entry.file "X"),
               ("/trash", Entry.file "oops")],
        repo := { trashFolderLocation := "/trash", basePath := "/r", identity := ⟨0⟩ } }
      { name := "x", uri := "/r/x.bpmn", xml := "X" } =
      (Except.error RepoError.BadRequestError,
        { fs := [("/r", Entry.directory), ("/r/x.bpmn", Entry.file "X"),
                 ("/trash", Entry.file "oops")],
          repo := { trashFolderLocation := "/trash", basePath := "/r", identity := ⟨0⟩ } }) :=
  ⟨(deleteDiagram_trash_check_spec _ _ (by decide)).1,
   (deleteDiagram_trash_check_spec _ _ (by decide)).2⟩

/-- Claim C9: for a diagram whose `uri` matches the canonical
`join(basePath, name + suffix)` and whose parent directory exists,
saving twice leaves the same final filesystem as saving once, and the
file at the diagram's `uri` holds exactly the diagram's `xml` — in both
`saveDiagram` variants. -/
theorem saveDiagram_idempotent_spec (w : World) (d : IDiagram)
    (hu : pathJoin w.repo.basePath (d.name ++ BPMN_FILE_SUFFIX) = d.uri)
    (hd : isDirectory w.fs (dirname d.uri) = true) :
    ((saveDiagramV2 (saveDiagramV2 w d none).2 d none).2.fs = (saveDiagramV2 w d none).2.fs
      ∧ (saveDiagramV2 w d none).2.fs.lookup d.uri = some (Entry.file d.xml))
    ∧ ((saveDiagramV1 (saveDiagramV1 w d none).2 d none).2.fs = (saveDiagramV1 w d none).2.fs
      ∧ (saveDiagramV1 w d none).2.fs.lookup d.uri = some (Entry.file d.xml)) := by
  have h1 := saveV2_none_ok hu hd
  have h1' := saveV1_none_ok (w := w) hd
  rw [h1, h1']
  by_cases hself : dirname d.uri = d.uri
  · have hd2 : isDirectory (writeFile w.fs d.uri d.xml) (dirname d.uri) = false := by
      rw [hself]
      unfold isDirectory
      rw [lookup_writeFile_self]
    obtain ⟨e2, he2⟩ := saveV2_none_check_error
      (w := { w with fs := writeFile w.fs d.uri d.xml }) (d := d) hu hd2
    obtain ⟨e1, he1⟩ := saveV1_none_error
      (w := { w with fs := writeFile w.fs d.uri d.xml }) (d := d) hd2
    refine ⟨⟨?_, lookup_writeFile_self w.fs d.uri d.xml⟩,
            ⟨?_, lookup_writeFile_self w.fs d.uri d.xml⟩⟩
    · rw [he2]
    · rw [he1]
  · have hd2 : isDirectory (writeFile w.fs d.uri d.xml) (dirname d.uri) = true := by
      rw [isDirectory_writeFile_ne w.fs d.xml hself]
      exact hd
    have h2 := saveV2_none_ok (w := { w with fs := writeFile w.fs d.uri d.xml }) (d := d) hu hd2
    have h2' := saveV1_none_ok (w := { w with fs := writeFile w.fs d.uri d.xml }) (d := d) hd2
    refine ⟨⟨?_, lookup_writeFile_self w.fs d.uri d.xml⟩,
            ⟨?_, lookup_writeFile_self w.fs d.uri d.xml⟩⟩
    · rw [h2]
      exact writeFile_writeFile w.fs d.uri d.xml
    · rw [h2']
      exact writeFile_writeFile w.fs d.uri d.xml

/-- A concrete demonstration world: solution root `/r` with two diagram
files and one non-diagram file, and a trash folder already holding
`x.bpmn`. -/
def wDemo : World :=
  { fs := [("/r", Entry.directory), ("/r/a.bpmn", Entry.file "A"),
           ("/r/b.bpmn", Entry.file "B"), ("/r/c.txt", Entry.file "C"),
           ("/trash", Entry.directory), ("/trash/x.bpmn", Entry.file "OLD")],
    repo := { trashFolderLocation := "/trash", basePath := "/r", identity := ⟨0⟩ } }

/-- A concrete diagram whose `uri` is canonical for root `/r`. -/
def dA : IDiagram := { name := "a", uri := "/r/a.bpmn", xml := "NEW" }

/-- Witness for C9 at the demonstration world. -/
theorem saveDiagram_idempotent_spec_witness :
    ((saveDiagramV2 (saveDiagramV2 wDemo dA none).2 dA none).2.fs
        = (saveDiagramV2 wDemo dA none).2.fs
      ∧ (saveDiagramV2 wDemo dA none).2.fs.lookup dA.uri = some (Entry.file dA.xml))
    ∧ ((saveDiagramV1 (saveDiagramV1 wDemo dA none).2 dA none).2.fs
        = (saveDiagramV1 wDemo dA none).2.fs
      ∧ (saveDiagramV1 wDemo dA none).2.fs.lookup dA.uri = some (Entry.file dA.xml)) :=
  saveDiagram_idempotent_spec wDemo dA (by decide) (by decide)

/-- A world with a second directory `/q` next to the root `/r`, holding
a diagram file that has "moved" out of the root. -/
def wQ : World :=
  { fs := [("/r", Entry.directory), ("/q", Entry.directory),
           ("/q/a.bpmn", Entry.file "A")],
    repo := { trashFolderLocation := "/trash", basePath := "/r", identity := ⟨0⟩ } }

/-- A diagram whose `uri` no longer matches `join(basePath, name + suffix)`. -/
def dMoved : IDiagram := { name := "a", uri := "/q/a.bpmn", xml := "X" }

/-- Counterexample to C1 as stated: the first `saveDiagram` variant
(lines 79 to 97), called with no `newPathSpec` on a diagram whose `uri`
differs from `join(basePath, name + suffix)`, does not fail with
`BadRequestError` — it succeeds and writes the diagram's `xml` to the
diagram's `uri`. -/
theorem saveDiagram_guard_counterexample :
    pathJoin wQ.repo.basePath (dMoved.name ++ BPMN_FILE_SUFFIX) ≠ dMoved.uri ∧
    (saveDiagramV1 wQ dMoved none).1 = Except.ok () ∧
    (saveDiagramV1 wQ dMoved none).2.fs.lookup "/q/a.bpmn" = some (Entry.file "X") := by
  decide

/-- Claim C1 (amended): the second `saveDiagram` variant (lines 295 to
323) behaves as the claim states — with no `newPathSpec`, a `uri`
differing from `join(basePath, name + suffix)` is rejected with
`BadRequestError` and nothing is written, while a matching `uri` (or an
explicitly supplied `newPathSpec`, which bypasses the comparison) leads
to the `xml` being written to the target, overwriting any existing
file.  The first variant (lines 79 to 97) performs no comparison and
writes to the diagram's own `uri` unconditionally. -/
theorem saveDiagram_guard_spec :
    (∀ (w : World) (d : IDiagram),
        pathJoin w.repo.basePath (d.name ++ BPMN_FILE_SUFFIX) ≠ d.uri →
          saveDiagramV2 w d none = (Except.error RepoError.BadRequestError, w)) ∧
    (∀ (w : World) (d : IDiagram),
        pathJoin w.repo.basePath (d.name ++ BPMN_FILE_SUFFIX) = d.uri →
          isDirectory w.fs (dirname d.uri) = true →
            saveDiagramV2 w d none
              = (Except.ok (), { w with fs := writeFile w.fs d.uri d.xml }) ∧
            (saveDiagramV2 w d none).2.fs.lookup d.uri = some (Entry.file d.xml)) ∧
    (∀ (w : World) (d : IDiagram) (p : String),
        isDirectory w.fs (dirname p) = true →
          saveDiagramV2 w d (some p)
            = (Except.ok (), { w with fs := writeFile w.fs p d.xml }) ∧
          (saveDiagramV2 w d (some p)).2.fs.lookup p = some (Entry.file d.xml)) ∧
    (∀ (w : World) (d : IDiagram),
        isDirectory w.fs (dirname d.uri) = true →
          saveDiagramV1 w d none
            = (Except.ok (), { w with fs := writeFile w.fs d.uri d.xml })) := by
  refine ⟨?_, ?_, ?_, ?_⟩
  · intro w d hu
    exact saveV2_none_guard hu
  · intro w d hu hd
    refine ⟨saveV2_none_ok hu hd, ?_⟩
    rw [saveV2_none_ok hu hd]
    exact lookup_writeFile_self w.fs d.uri d.xml
  · intro w d p hd
    refine ⟨saveV2_some_ok hd, ?_⟩
    rw [saveV2_some_ok hd]
    exact lookup_writeFile_self w.fs p d.xml
  · intro w d hd
    exact saveV1_none_ok hd

/-- Witness for C1 (amended): the guard rejecting a moved diagram, the
successful canonical write, the bypass through an explicit path, and
the first variant's unconditional write, all at concrete worlds. -/
theorem saveDiagram_guard_spec_witness :
    saveDiagramV2 wQ dMoved none = (Except.error RepoError.BadRequestError, wQ) ∧
    saveDiagramV2 wDemo dA none
      = (Except.ok (), { wDemo with fs := writeFile wDemo.fs dA.uri dA.xml }) ∧
    saveDiagramV2 wQ dA (some "/q/n.bpmn")
      = (Except.ok (), { wQ with fs := writeFile wQ.fs "/q/n.bpmn" dA.xml }) ∧
    saveDiagramV1 wQ dMoved none
      = (Except.ok (), { wQ with fs := writeFile wQ.fs dMoved.uri dMoved.xml }) :=
  ⟨saveDiagram_guard_spec.1 wQ dMoved (by decide),
   (saveDiagram_guard_spec.2.1 wDemo dA (by decide) (by decide)).1,
   (saveDiagram_guard_spec.2.2.1 wQ dA "/q/n.bpmn" (by decide)).1,
   saveDiagram_guard_spec.2.2.2 wQ dMoved (by decide)⟩

/-- A world for the rename-collision scenarios: the root holds
`Foo.bpmn`, its pure-case-change sibling `foo.bpmn`, and `bar.bpmn`. -/
def wR : World :=
  { fs := [("/r", Entry.directory), ("/r/Foo.bpmn", Entry.file "A"),
           ("/r/foo.bpmn", Entry.file "B"), ("/r/bar.bpmn", Entry.file "C")],
    repo := { trashFolderLocation := "/trash", basePath := "/r", identity := ⟨0⟩ } }

/-- The diagram backed by `/r/Foo.bpmn`. -/
def dFoo : IDiagram := { name := "Foo", uri := "/r/Foo.bpmn", xml := "A" }

/-- Counterexample to C3 as stated: in the first `renameDiagram`
variant (lines 126 to 143), renaming `Foo` to `foo` while `/r/foo.bpmn`
already exists does not fail — the case-insensitive special case lets
the rename proceed, the existing destination is overwritten and the
source disappears. -/
theorem renameDiagram_collision_counterexample :
    existsSync wR.fs (pathJoin wR.repo.basePath ("foo" ++ BPMN_FILE_SUFFIX)) = true ∧
    (renameDiagramV1 wR dFoo "foo").1
      = Except.ok { name := "foo", uri := "/r/foo.bpmn", xml := "A", id := some "/r/foo.bpmn" } ∧
    (renameDiagramV1 wR dFoo "foo").2.fs.lookup "/r/foo.bpmn" = some (Entry.file "A") ∧
    (renameDiagramV1 wR dFoo "foo").2.fs.lookup "/r/Foo.bpmn" = none := by
  decide

/-- Claim C3 (amended): when a file already exists at
`join(basePath, newName + suffix)`, the second `renameDiagram` variant
(lines 363 to 379) always fails with `BadRequestError` and leaves the
world unchanged; the first variant (lines 126 to 143) does so provided
the new name differs case-insensitively from the diagram's current name
(a pure case-change is allowed through and renames over the
destination). -/
theorem renameDiagram_collision_spec :
    (∀ (w : World) (d : IDiagram) (y : String),
        isDirectory w.fs (dirname (pathJoin w.repo.basePath (y ++ BPMN_FILE_SUFFIX))) = true →
        existsSync w.fs (pathJoin w.repo.basePath (y ++ BPMN_FILE_SUFFIX)) = true →
          renameDiagramV2 w d y = (Except.error RepoError.BadRequestError, w)) ∧
    (∀ (w : World) (d : IDiagram) (y : String),
        isDirectory w.fs (dirname (pathJoin w.repo.basePath (y ++ BPMN_FILE_SUFFIX))) = true →
        existsSync w.fs (pathJoin w.repo.basePath (y ++ BPMN_FILE_SUFFIX)) = true →
        strToLower y ≠ strToLower d.name →
          renameDiagramV1 w d y = (Except.error RepoError.BadRequestError, w)) := by
  constructor
  · intro w d y hdir hex
    unfold renameDiagramV2
    have hok : checkWriteablity w.fs (pathJoin w.repo.basePath (y ++ BPMN_FILE_SUFFIX))
        = Except.ok () := checkForDirectory_ok hdir
    simp [hok, hex]
  · intro w d y hdir hex hcase
    unfold renameDiagramV1
    have hok : checkWriteablity w.fs (pathJoin w.repo.basePath (y ++ BPMN_FILE_SUFFIX))
        = Except.ok () := checkForDirectory_ok hdir
    simp [hok, hex, hcase]

/-- Witness for C3 (amended): a collision with a genuinely different
name is rejected by both variants at concrete worlds. -/
theorem renameDiagram_collision_spec_witness :
    renameDiagramV2 wR dFoo "foo" = (Except.error RepoError.BadRequestError, wR) ∧
    renameDiagramV1 wR dFoo "bar" = (Except.error RepoError.BadRequestError, wR) :=
  ⟨renameDiagram_collision_spec.1 wR dFoo "foo" (by decide) (by decide),
   renameDiagram_collision_spec.2 wR dFoo "bar" (by decide) (by decide) (by decide)⟩

/-- A world whose trash already holds `x.bpmn`, with `x.bpmn.1` free. -/
def wTrash : World :=
  { fs := [("/r", Entry.directory), ("/r/x.bpmn", Entry.file "XML"),
           ("/trash", Entry.directory), ("/trash/x.bpmn", Entry.file "OLD")],
    repo := { trashFolderLocation := "/trash", basePath := "/r", identity := ⟨0⟩ } }

/-- A world whose trash holds `x.bpmn` and `x.bpmn.2`, with `x.bpmn.1`
free. -/
def wTrash2 : World :=
  { fs := [("/r", Entry.directory), ("/r/x.bpmn", Entry.file "XML"),
           ("/trash", Entry.directory), ("/trash/x.bpmn", Entry.file "OLD"),
           ("/trash/x.bpmn.2", Entry.file "KEEP")],
    repo := { trashFolderLocation := "/trash", basePath := "/r", identity := ⟨0⟩ } }

/-- The diagram backed by `/r/x.bpmn`. -/
def dX : IDiagram := { name := "x", uri := "/r/x.bpmn", xml := "XML" }

/-- Claim C2, settled against the code: with `trash/x.bpmn` occupied and
`trash/x.bpmn.1` free, the first variant's `deleteDiagram` (through
`_findUnusedFilename`, lines 152 to 162) moves the file to
`trash/x.bpmn.1` exactly as the claim states, but the second variant's
`deleteDiagram` (lines 339 to 361) skips the free name and lands on
`trash/x.bpmn.2`; worse, when `trash/x.bpmn.2` is itself occupied it
still picks `trash/x.bpmn.2` and the rename overwrites that existing
trash file. -/
theorem deleteDiagram_lowest_unused_divergence :
    (existsSync wTrash.fs "/trash/x.bpmn" = true ∧
      existsSync wTrash.fs "/trash/x.bpmn.1" = false) ∧
    ((deleteDiagramV1 wTrash dX).1 = Except.ok () ∧
      (deleteDiagramV1 wTrash dX).2.fs.lookup "/trash/x.bpmn.1" = some (Entry.file "XML") ∧
      (deleteDiagramV1 wTrash dX).2.fs.lookup "/r/x.bpmn" = none) ∧
    ((deleteDiagramV2 wTrash dX).1 = Except.ok () ∧
      (deleteDiagramV2 wTrash dX).2.fs.lookup "/trash/x.bpmn.2" = some (Entry.file "XML") ∧
      (deleteDiagramV2 wTrash dX).2.fs.lookup "/trash/x.bpmn.1" = none ∧
      (deleteDiagramV2 wTrash dX).2.fs.lookup "/r/x.bpmn" = none) ∧
    ((deleteDiagramV1 wTrash2 dX).2.fs.lookup "/trash/x.bpmn.1" = some (Entry.file "XML") ∧
      (deleteDiagramV1 wTrash2 dX).2.fs.lookup "/trash/x.bpmn.2" = some (Entry.file "KEEP") ∧
      (deleteDiagramV2 wTrash2 dX).2.fs.lookup "/trash/x.bpmn.2" = some (Entry.file "XML") ∧
      (deleteDiagramV2 wTrash2 dX).2.fs.lookup "/trash/x.bpmn.1" = none) := by
  decide

/-- The renamed filesystem produced by a successful rename of `d.uri`
onto a fresh destination. -/
theorem rename_ok {fs : FileSystem} {oldPath : String} {xml : String}
    (hsrc : fs.lookup oldPath = some (Entry.file xml)) (newPath : String) :
    rename fs oldPath newPath
      = Except.ok ((newPath, Entry.file xml) :: (fs.removeKey oldPath).removeKey newPath) := by
  unfold rename
  rw [hsrc]

/-- The filesystem after a successful rename of `d.uri` onto the fresh
destination `join(basePath, y + suffix)` carrying content `xml`. -/
def renamedFs (w : World) (d : IDiagram) (y xml : String) : FileSystem :=
  (pathJoin w.repo.basePath (y ++ BPMN_FILE_SUFFIX), Entry.file xml) ::
    (w.fs.removeKey d.uri).removeKey (pathJoin w.repo.basePath (y ++ BPMN_FILE_SUFFIX))

/-- The diagram that `getDiagramByName` returns after such a rename. -/
def renamedDiagram (w : World) (y xml : String) : IDiagram :=
  { name := y, uri := pathJoin w.repo.basePath (y ++ BPMN_FILE_SUFFIX),
    xml := xml, id := some (pathJoin w.repo.basePath (y ++ BPMN_FILE_SUFFIX)) }

/-- Claim C6: renaming a diagram to a fresh name `y` succeeds in both
variants: the old path no longer exists, the new path
`join(basePath, y + suffix)` holds the original content, and the
returned diagram is the one re-read through `getDiagramByName` — its
`name` is `y`, its `uri` and `id` both equal the joined new path, and
its `xml` is the post-rename file content. -/
theorem renameDiagram_success_spec (w : World) (d : IDiagram) (y xml : String)
    (hdir : isDirectory w.fs (dirname (pathJoin w.repo.basePath (y ++ BPMN_FILE_SUFFIX))) = true)
    (hfree : w.fs.lookup (pathJoin w.repo.basePath (y ++ BPMN_FILE_SUFFIX)) = none)
    (hsrc : w.fs.lookup d.uri = some (Entry.file xml)) :
    renameDiagramV1 w d y
      = (Except.ok (renamedDiagram w y xml), { w with fs := renamedFs w d y xml }) ∧
    renameDiagramV1 w d y = renameDiagramV2 w d y ∧
    (renameDiagramV1 w d y).2.fs.lookup d.uri = none ∧
    (renameDiagramV1 w d y).2.fs.lookup (pathJoin w.repo.basePath (y ++ BPMN_FILE_SUFFIX))
      = some (Entry.file xml) := by
  have hok : checkWriteablity w.fs (pathJoin w.repo.basePath (y ++ BPMN_FILE_SUFFIX))
      = Except.ok () := checkForDirectory_ok hdir
  have hex : existsSync w.fs (pathJoin w.repo.basePath (y ++ BPMN_FILE_SUFFIX)) = false := by
    unfold existsSync
    rw [hfree]
    rfl
  have hne : d.uri ≠ pathJoin w.repo.basePath (y ++ BPMN_FILE_SUFFIX) := by
    intro hcontra
    rw [hcontra, hfree] at hsrc
    cases hsrc
  have hren : rename w.fs d.uri (pathJoin w.repo.basePath (y ++ BPMN_FILE_SUFFIX))
      = Except.ok (renamedFs w d y xml) :=
    rename_ok hsrc (pathJoin w.repo.basePath (y ++ BPMN_FILE_SUFFIX))
  have hlooknew : (renamedFs w d y xml).lookup
      (pathJoin w.repo.basePath (y ++ BPMN_FILE_SUFFIX)) = some (Entry.file xml) := by
    simp [renamedFs, FileSystem.lookup]
  have hlookold : (renamedFs w d y xml).lookup d.uri = none := by
    have h1 : pathJoin w.repo.basePath (y ++ BPMN_FILE_SUFFIX) ≠ d.uri := fun c => hne c.symm
    unfold renamedFs
    simp [FileSystem.lookup, h1]
    rw [lookup_removeKey_ne _ hne]
    exact lookup_removeKey_self w.fs d.uri
  have hread : getDiagramByName { w with fs := renamedFs w d y xml } y
      = Except.ok (renamedDiagram w y xml) := by
    unfold getDiagramByName readFile renamedDiagram
    rw [hlooknew]
  have hv1 : renameDiagramV1 w d y
      = (Except.ok (renamedDiagram w y xml), { w with fs := renamedFs w d y xml }) := by
    unfold renameDiagramV1
    simp [hok, hex, hren, hread]
  have hv2 : renameDiagramV2 w d y
      = (Except.ok (renamedDiagram w y xml), { w with fs := renamedFs w d y xml }) := by
    unfold renameDiagramV2
    simp [hok, hex, hren, hread]
  refine ⟨hv1, hv1.trans hv2.symm, ?_, ?_⟩
  · rw [hv1]
    exact hlookold
  · rw [hv1]
    exact hlooknew

/-- Witness for C6: renaming `a` to `n` in the demonstration world. -/
theorem renameDiagram_success_spec_witness :
    renameDiagramV1 wDemo { name := "a", uri := "/r/a.bpmn", xml := "A" } "n"
      = (Except.ok (renamedDiagram wDemo "n" "A"),
         { wDemo with fs := renamedFs wDemo { name := "a", uri := "/r/a.bpmn", xml := "A" } "n" "A" }) ∧
    renameDiagramV1 wDemo { name := "a", uri := "/r/a.bpmn", xml := "A" } "n"
      = renameDiagramV2 wDemo { name := "a", uri := "/r/a.bpmn", xml := "A" } "n" ∧
    (renameDiagramV1 wDemo { name := "a", uri := "/r/a.bpmn", xml := "A" } "n").2.fs.lookup "/r/a.bpmn"
      = none ∧
    (renameDiagramV1 wDemo { name := "a", uri := "/r/a.bpmn", xml := "A" } "n").2.fs.lookup
        (pathJoin wDemo.repo.basePath ("n" ++ BPMN_FILE_SUFFIX))
      = some (Entry.file "A") :=
  renameDiagram_success_spec wDemo { name := "a", uri := "/r/a.bpmn", xml := "A" } "n" "A"
    (by decide) (by decide) (by decide)

/-- Every member of a successful `mapME` result comes from applying the
function to some member of the input list. -/
theorem mapME_mem {α β : Type} {g : α → Except RepoError β} :
    ∀ {l : List α} {bs : List β}, mapME g l = Except.ok bs →
      ∀ b ∈ bs, ∃ a ∈ l, g a = Except.ok b := by
  intro l
  induction l with
  | nil =>
    intro bs h b hb
    unfold mapME at h
    cases h
    cases hb
  | cons a as ih =>
    intro bs h b hb
    unfold mapME at h
    cases hga : g a with
    | error e => rw [hga] at h; cases h
    | ok b0 =>
      rw [hga] at h
      cases hrec : mapME g as with
      | error e => rw [hrec] at h; cases h
      | ok bs0 =>
        rw [hrec] at h
        cases h
        cases hb with
        | head => exact ⟨a, List.mem_cons_self a as, hga⟩
        | tail _ hb0 =>
          obtain ⟨x, hx, hgx⟩ := ih hrec b hb0
          exact ⟨x, List.mem_cons_of_mem a hx, hgx⟩

/-- When every element maps successfully, `mapME` succeeds and its
result is pointwise related to the input. -/
theorem mapME_ok_of_forall {α β : Type} {g : α → Except RepoError β} :
    ∀ {l : List α}, (∀ a ∈ l, exceptIsOk (g a) = true) →
      ∃ bs, mapME g l = Except.ok bs ∧
        List.Forall₂ (fun a b => g a = Except.ok b) l bs := by
  intro l
  induction l with
  | nil => exact fun _ => ⟨[], rfl, List.Forall₂.nil⟩
  | cons a as ih =>
    intro h
    have ha := h a (List.mem_cons_self a as)
    cases hga : g a with
    | error e => rw [hga] at ha; simp [exceptIsOk] at ha
    | ok b =>
      obtain ⟨bs, hbs, hf⟩ := ih (fun x hx => h x (List.mem_cons_of_mem a hx))
      refine ⟨b :: bs, ?_, List.Forall₂.cons hga hf⟩
      unfold mapME
      rw [hga, hbs]

/-- When some element fails to map, `mapME` fails. -/
theorem mapME_error_of_mem {α β : Type} {g : α → Except RepoError β} :
    ∀ {l : List α} {a : α}, a ∈ l → exceptIsOk (g a) = false →
      ∃ e, mapME g l = Except.error e := by
  intro l
  induction l with
  | nil => intro a ha; cases ha
  | cons x xs ih =>
    intro a ha hfail
    cases hgx : g x with
    | error e =>
      refine ⟨e, ?_⟩
      unfold mapME
      rw [hgx]
    | ok b =>
      cases ha with
      | head => rw [hgx] at hfail; simp [exceptIsOk] at hfail
      | tail _ ha0 =>
        obtain ⟨e, he⟩ := ih ha0 hfail
        refine ⟨e, ?_⟩
        unfold mapME
        rw [hgx, he]

/-- A successful per-file read yields exactly the record built from the
filename. -/
theorem readDiagramEntry_ok {w : World} {f : String} {d : IDiagram}
    (h : readDiagramEntry w f = Except.ok d) :
    d.name = strDropRight f BPMN_FILE_SUFFIX.length ∧
    d.uri = pathJoin w.repo.basePath f ∧
    readFile w.fs (pathJoin w.repo.basePath f) = Except.ok d.xml ∧
    d.id = none := by
  unfold readDiagramEntry at h
  cases hr : readFile w.fs (pathJoin w.repo.basePath f) with
  | error e => rw [hr] at h; cases h
  | ok xml =>
    rw [hr] at h
    cases h
    exact ⟨rfl, rfl, rfl, rfl⟩

/-- The per-file read succeeds exactly when the underlying file read
succeeds. -/
theorem readDiagramEntry_isOk (w : World) (f : String) :
    exceptIsOk (readDiagramEntry w f)
      = exceptIsOk (readFile w.fs (pathJoin w.repo.basePath f)) := by
  unfold readDiagramEntry
  cases hr : readFile w.fs (pathJoin w.repo.basePath f) with
  | error e => rfl
  | ok xml => rfl

/-- A successful `getDiagramByName` returns exactly the record built
from the joined path. -/
theorem getDiagramByName_ok {w : World} {n : String} {d : IDiagram}
    (h : getDiagramByName w n = Except.ok d) :
    d.id = some d.uri ∧ d.uri = pathJoin w.repo.basePath (n ++ BPMN_FILE_SUFFIX) ∧
    d.name = n := by
  unfold getDiagramByName at h
  cases hr : readFile w.fs (pathJoin w.repo.basePath (n ++ BPMN_FILE_SUFFIX)) with
  | error e => rw [hr] at h; cases h
  | ok xml =>
    rw [hr] at h
    cases h
    exact ⟨rfl, rfl, rfl⟩

/-- Claim C10: diagrams returned by `getDiagrams` never carry an `id`,
while diagrams returned by `getDiagramByName` — and therefore by
`renameDiagram`, which returns through `getDiagramByName` — carry an
`id` equal to their `uri`, the full joined path. -/
theorem id_field_presence_spec :
    (∀ (w : World) (ds : List IDiagram), getDiagrams w = Except.ok ds →
        ∀ d ∈ ds, d.id = none) ∧
    (∀ (w : World) (n : String) (d : IDiagram), getDiagramByName w n = Except.ok d →
        d.id = some d.uri ∧ d.uri = pathJoin w.repo.basePath (n ++ BPMN_FILE_SUFFIX) ∧
        d.name = n) ∧
    (∀ (w w1 : World) (d0 dr : IDiagram) (y : String),
        renameDiagramV1 w d0 y = (Except.ok dr, w1) → dr.id = some dr.uri) ∧
    (∀ (w w1 : World) (d0 dr : IDiagram) (y : String),
        renameDiagramV2 w d0 y = (Except.ok dr, w1) → dr.id = some dr.uri) := by
  refine ⟨?_, ?_, ?_, ?_⟩
  · intro w ds h d hd
    unfold getDiagrams at h
    cases hrd : readdir w.fs w.repo.basePath with
    | error e => rw [hrd] at h; cases h
    | ok files =>
      rw [hrd] at h
      obtain ⟨f, _, hgf⟩ := mapME_mem h d hd
      exact (readDiagramEntry_ok hgf).2.2.2
  · intro w n d h
    exact getDiagramByName_ok h
  · intro w w1 d0 dr y h
    unfold renameDiagramV1 at h
    simp only at h
    split at h
    · simp at h
    · split at h
      · simp at h
      · split at h
        · simp at h
        · split at h
          · simp at h
          · rename_i hg
            injection h with h1 h2
            injection h1 with h3
            obtain ⟨hid, _, _⟩ := getDiagramByName_ok hg
            rw [← h3]
            exact hid
  · intro w w1 d0 dr y h
    unfold renameDiagramV2 at h
    simp only at h
    split at h
    · simp at h
    · split at h
      · simp at h
      · split at h
        · simp at h
        · split at h
          · simp at h
          · rename_i hg
            injection h with h1 h2
            injection h1 with h3
            obtain ⟨hid, _, _⟩ := getDiagramByName_ok hg
            rw [← h3]
            exact hid

/-- Witness for C10 at the demonstration world: the listed diagrams all
have `id = none`, the directly read diagram carries its path as `id`,
and both rename variants return diagrams whose `id` equals their
`uri`. -/
theorem id_field_presence_spec_witness :
    (∀ d ∈ [({ name := "a", uri := "/r/a.bpmn", xml := "A" } : IDiagram),
            { name := "b", uri := "/r/b.bpmn", xml := "B" }], d.id = none) ∧
    (({ name := "a", uri := "/r/a.bpmn", xml := "A", id := some "/r/a.bpmn" } : IDiagram).id
        = some "/r/a.bpmn" ∧
      ("/r/a.bpmn" : String) = pathJoin wDemo.repo.basePath ("a" ++ BPMN_FILE_SUFFIX) ∧
      ("a" : String) = "a") ∧
    (renamedDiagram wDemo "n" "A").id = some (renamedDiagram wDemo "n" "A").uri :=
  ⟨id_field_presence_spec.1 wDemo _ (by decide),
   id_field_presence_spec.2.1 wDemo "a"
     { name := "a", uri := "/r/a.bpmn", xml := "A", id := some "/r/a.bpmn" } (by decide),
   id_field_presence_spec.2.2.1 wDemo
     ((renameDiagramV1 wDemo { name := "a", uri := "/r/a.bpmn", xml := "A" } "n").2)
     { name := "a", uri := "/r/a.bpmn", xml := "A" } (renamedDiagram wDemo "n" "A") "n"
     (by decide)⟩

/-- Claim C5: given the listing of the current root, when every file
named with the `.bpmn` suffix is readable, `getDiagrams` returns
exactly one diagram per such entry and no others, aligned in order with
the filtered listing — each with `name` the filename minus the suffix,
`uri` the joined path and `xml` the file's full text content; and when
any single matching file fails to read, the whole operation fails with
an error and no partial result. -/
theorem getDiagrams_spec (w : World) (files : List String)
    (hdir : readdir w.fs w.repo.basePath = Except.ok files) :
    ((∀ f ∈ files.filter (fun f => strEndsWith f BPMN_FILE_SUFFIX),
        exceptIsOk (readFile w.fs (pathJoin w.repo.basePath f)) = true) →
      ∃ ds, getDiagrams w = Except.ok ds ∧
        List.Forall₂
          (fun f d => d.name = strDropRight f BPMN_FILE_SUFFIX.length ∧
            d.uri = pathJoin w.repo.basePath f ∧
            readFile w.fs (pathJoin w.repo.basePath f) = Except.ok d.xml)
          (files.filter (fun f => strEndsWith f BPMN_FILE_SUFFIX)) ds) ∧
    (∀ f ∈ files.filter (fun f => strEndsWith f BPMN_FILE_SUFFIX),
        exceptIsOk (readFile w.fs (pathJoin w.repo.basePath f)) = false →
          ∃ e, getDiagrams w = Except.error e) := by
  constructor
  · intro hall
    have hall2 : ∀ f ∈ files.filter (fun f => strEndsWith f BPMN_FILE_SUFFIX),
        exceptIsOk (readDiagramEntry w f) = true := by
      intro f hf
      rw [readDiagramEntry_isOk]
      exact hall f hf
    obtain ⟨ds, hds, hf2⟩ := mapME_ok_of_forall hall2
    refine ⟨ds, ?_, ?_⟩
    · unfold getDiagrams
      rw [hdir]
      exact hds
    · refine List.Forall₂.imp ?_ hf2
      intro f d hfd
      obtain ⟨h1, h2, h3, _⟩ := readDiagramEntry_ok hfd
      exact ⟨h1, h2, h3⟩
  · intro f hf hfail
    have hfail2 : exceptIsOk (readDiagramEntry w f) = false := by
      rw [readDiagramEntry_isOk]
      exact hfail
    obtain ⟨e, he⟩ := mapME_error_of_mem hf hfail2
    refine ⟨e, ?_⟩
    unfold getDiagrams
    rw [hdir]
    exact he

/-- A world whose root contains a `.bpmn` entry that is a directory, so
that reading it fails. -/
def wBadRead : World :=
  { fs := [("/r", Entry.directory), ("/r/a.bpmn", Entry.file "A"),
           ("/r/b.bpmn", Entry.directory), ("/r/c.txt", Entry.file "C")],
    repo := { trashFolderLocation := "/trash", basePath := "/r", identity := ⟨0⟩ } }

/-- Witness for C5: the demonstration world lists exactly `a` and `b`,
and the world with an unreadable `b.bpmn` fails as a whole. -/
theorem getDiagrams_spec_witness :
    (∃ ds, getDiagrams wDemo = Except.ok ds ∧
      List.Forall₂
        (fun f d => d.name = strDropRight f BPMN_FILE_SUFFIX.length ∧
          d.uri = pathJoin wDemo.repo.basePath f ∧
          readFile wDemo.fs (pathJoin wDemo.repo.basePath f) = Except.ok d.xml)
        (["a.bpmn", "b.bpmn", "c.txt"].filter (fun f => strEndsWith f BPMN_FILE_SUFFIX)) ds) ∧
    (∃ e, getDiagrams wBadRead = Except.error e) :=
  ⟨(getDiagrams_spec wDemo ["a.bpmn", "b.bpmn", "c.txt"] (by decide)).1 (by decide),
   (getDiagrams_spec wBadRead ["a.bpmn", "b.bpmn", "c.txt"] (by decide)).2
     "b.bpmn" (by decide) (by decide)⟩

/-- Lemma: `openPath` on a directory succeeds and installs the new root and
identity. -/
theorem openPath_ok {w : World} {p : String} {i : IIdentity}
    (h : isDirectory w.fs p = true) :
    openPath w p i
      = (Except.ok (), { w with repo := { w.repo with basePath := p, identity := i } }) := by
  unfold openPath
  rw [checkForDirectory_ok h]

/-- Unfolding the first component of the batch save on a nonempty
list. -/
theorem saveAll_cons_fst (w : World) (d : IDiagram) (rest : List IDiagram) :
    (saveAllDiagramsV1 w (d :: rest)).1
      = (match (saveDiagramV1 w d none).1 with
         | Except.error e => Except.error e
         | Except.ok () => (saveAllDiagramsV1 (saveDiagramV1 w d none).2 rest).1) := rfl

/-- Unfolding the final world of the batch save on a nonempty list. -/
theorem saveAll_cons_snd (w : World) (d : IDiagram) (rest : List IDiagram) :
    (saveAllDiagramsV1 w (d :: rest)).2
      = (saveAllDiagramsV1 (saveDiagramV1 w d none).2 rest).2 := rfl

/-- The batch save never touches a path that is not one of its write
targets. -/
theorem saveAll_lookup_preserved : ∀ (ds : List IDiagram) (w : World) (u : String),
    (∀ d ∈ ds, d.uri ≠ u) →
    ((saveAllDiagramsV1 w ds).2).fs.lookup u = w.fs.lookup u := by
  intro ds
  induction ds with
  | nil => intro w u _; rfl
  | cons d rest ih =>
    intro w u hne
    rw [saveAll_cons_snd]
    rw [ih _ _ (fun x hx => hne x (List.mem_cons_of_mem d hx))]
    by_cases hd : isDirectory w.fs (dirname d.uri) = true
    · rw [saveV1_none_ok hd]
      exact lookup_writeFile_ne w.fs d.xml
        (fun c => hne d (List.mem_cons_self d rest) c.symm)
    · obtain ⟨e, he⟩ := saveV1_none_error (show _ = false by simpa using hd)
      rw [he]

/-- The batch save succeeds exactly when every diagram's parent
directory check passes, provided no write target is also a checked
parent directory. -/
theorem saveAll_ok_iff : ∀ (ds : List IDiagram) (w : World),
    (∀ x ∈ ds, ∀ y ∈ ds, dirname x.uri ≠ y.uri) →
    (((saveAllDiagramsV1 w ds).1 = Except.ok ()) ↔
      ∀ d ∈ ds, isDirectory w.fs (dirname d.uri) = true) := by
  intro ds
  induction ds with
  | nil =>
    intro w _
    simp [saveAllDiagramsV1]
  | cons d rest ih =>
    intro w hstab
    have hstab2 : ∀ x ∈ rest, ∀ y ∈ rest, dirname x.uri ≠ y.uri :=
      fun x hx y hy =>
        hstab x (List.mem_cons_of_mem d hx) y (List.mem_cons_of_mem d hy)
    rw [saveAll_cons_fst]
    by_cases hd : isDirectory w.fs (dirname d.uri) = true
    · have h1 := saveV1_none_ok (w := w) (d := d) hd
      rw [h1]
      simp only []
      have hpres : ∀ x ∈ rest,
          isDirectory (writeFile w.fs d.uri d.xml) (dirname x.uri)
            = isDirectory w.fs (dirname x.uri) := by
        intro x hx
        exact isDirectory_writeFile_ne w.fs d.xml
          (hstab x (List.mem_cons_of_mem d hx) d (List.mem_cons_self d rest))
      rw [ih _ hstab2]
      constructor
      · intro hall z hz
        cases hz with
        | head => exact hd
        | tail _ hz2 =>
          have := hall z hz2
          rw [hpres z hz2] at this
          exact this
      · intro hall z hz
        rw [hpres z hz]
        exact hall z (List.mem_cons_of_mem d hz)
    · have hdf : isDirectory w.fs (dirname d.uri) = false := by simpa using hd
      obtain ⟨e, he⟩ := saveV1_none_error hdf
      have hfirst : (saveDiagramV1 w d none).1 = Except.error e := by rw [he]
      rw [hfirst]
      constructor
      · intro hok
        cases hok
      · intro hall
        exact absurd (hall d (List.mem_cons_self d rest)) (by simp [hdf])

/-- Each diagram whose own check passes ends up written in the batch
save's final filesystem, whatever happened to the other diagrams. -/
theorem saveAll_writes : ∀ (ds : List IDiagram) (w : World) (d : IDiagram),
    d ∈ ds →
    (∀ x ∈ ds, ∀ y ∈ ds, dirname x.uri ≠ y.uri) →
    (ds.map IDiagram.uri).Nodup →
    isDirectory w.fs (dirname d.uri) = true →
    ((saveAllDiagramsV1 w ds).2).fs.lookup d.uri = some (Entry.file d.xml) := by
  intro ds
  induction ds with
  | nil => intro w d hd; cases hd
  | cons x rest ih =>
    intro w d hd hstab hnodup hdir
    rw [saveAll_cons_snd]
    cases hd with
    | head =>
      rw [saveV1_none_ok hdir]
      have hne : ∀ y ∈ rest, y.uri ≠ x.uri := by
        intro y hy c
        have hmem : x.uri ∈ rest.map IDiagram.uri := by
          rw [← c]
          exact List.mem_map_of_mem IDiagram.uri hy
        exact (List.nodup_cons.mp hnodup).1 hmem
      rw [saveAll_lookup_preserved rest _ _ hne]
      exact lookup_writeFile_self w.fs x.uri x.xml
    | tail _ hd2 =>
      have hstab2 : ∀ a ∈ rest, ∀ b ∈ rest, dirname a.uri ≠ b.uri :=
        fun a ha b hb =>
          hstab a (List.mem_cons_of_mem x ha) b (List.mem_cons_of_mem x hb)
      have hnodup2 : (rest.map IDiagram.uri).Nodup := (List.nodup_cons.mp hnodup).2
      by_cases hx : isDirectory w.fs (dirname x.uri) = true
      · rw [saveV1_none_ok hx]
        refine ih _ d hd2 hstab2 hnodup2 ?_
        rw [isDirectory_writeFile_ne w.fs x.xml
          (hstab d (List.mem_cons_of_mem x hd2) x (List.mem_cons_self x rest))]
        exact hdir
      · obtain ⟨e, he⟩ := saveV1_none_error (show _ = false by simpa using hx)
        rw [he]
        exact ih _ d hd2 hstab2 hnodup2 hdir

/-- Claim C7: `saveSolution` with a new root first re-opens the store at
that root — updating the stored root while reusing the stored identity —
and then saves every diagram of the solution through `saveDiagram` with
no path override, so each diagram's own `uri` is the write target; the
batch succeeds exactly when every per-diagram save succeeds (any
failure fails the whole operation), and every diagram whose own save
succeeded stays written even when the batch fails (no rollback). -/
theorem saveSolution_spec (w : World) (sol : ISolution) (p : String)
    (hp : isDirectory w.fs p = true)
    (hstab : ∀ x ∈ sol.diagrams, ∀ y ∈ sol.diagrams, dirname x.uri ≠ y.uri)
    (hnodup : (sol.diagrams.map IDiagram.uri).Nodup) :
    saveSolutionV1 w sol (some p)
      = saveAllDiagramsV1
          { w with repo := { w.repo with basePath := p, identity := w.repo.identity } }
          sol.diagrams ∧
    (((saveSolutionV1 w sol (some p)).1 = Except.ok ()) ↔
      ∀ d ∈ sol.diagrams, isDirectory w.fs (dirname d.uri) = true) ∧
    (∀ d ∈ sol.diagrams, isDirectory w.fs (dirname d.uri) = true →
      ((saveSolutionV1 w sol (some p)).2).fs.lookup d.uri = some (Entry.file d.xml)) := by
  have hopen := openPath_ok (w := w) (p := p) (i := w.repo.identity) hp
  have heq : saveSolutionV1 w sol (some p)
      = saveAllDiagramsV1
          { w with repo := { w.repo with basePath := p, identity := w.repo.identity } }
          sol.diagrams := by
    unfold saveSolutionV1
    simp only []
    rw [hopen]
  refine ⟨heq, ?_, ?_⟩
  · rw [heq]
    exact saveAll_ok_iff sol.diagrams _ hstab
  · intro d hd hdir
    rw [heq]
    exact saveAll_writes sol.diagrams _ d hd hstab hnodup hdir

/-- The demonstration solution: both diagrams of the demonstration
world, with fresh content. -/
def solDemo : ISolution :=
  { diagrams := [{ name := "a", uri := "/r/a.bpmn", xml := "NA" },
                 { name := "b", uri := "/r/b.bpmn", xml := "NB" }] }

/-- Witness for C7: re-opening the demonstration world at its root and
bulk-saving both diagrams. -/
theorem saveSolution_spec_witness :
    saveSolutionV1 wDemo solDemo (some "/r")
      = saveAllDiagramsV1
          { fs := wDemo.fs,
            repo := { trashFolderLocation := "/trash", basePath := "/r", identity := ⟨0⟩ } }
          solDemo.diagrams ∧
    (((saveSolutionV1 wDemo solDemo (some "/r")).1 = Except.ok ()) ↔
      ∀ d ∈ solDemo.diagrams, isDirectory wDemo.fs (dirname d.uri) = true) ∧
    (∀ d ∈ solDemo.diagrams, isDirectory wDemo.fs (dirname d.uri) = true →
      ((saveSolutionV1 wDemo solDemo (some "/r")).2).fs.lookup d.uri
        = some (Entry.file d.xml)) :=
  saveSolution_spec wDemo solDemo "/r" (by decide) (by decide) (by decide)

end SolutionExplorer
